import Mathlib

/-!
Verification of the market-analysis module (`fin_model/src/analysis.rs`).

The Rust data model is shallowly embedded:

* `HashMap<RatingType, u32>` becomes an association list
  `List (RatingType × Nat)`; iteration order of the hash map is the list
  order, and well-formed states (`Ratings.WF`) have nodup keys and counts
  below `2 ^ 32`.  The `u32` fold accumulators of `scaled_average` wrap, so
  every addition and multiplication is taken `% 2 ^ 32`.
* `f64::from(total) / f64::from(count)` divides two exactly representable
  `u32` values; we model the quotient as the exact rational `ℚ` value
  (the `f64` result is its correct rounding).
* `Money` and `Date` are opaque totally ordered primitives, so structures
  and theorems are generic over types with a `LinearOrder`.
* `Result<(), String>` becomes `Except String Unit`.
-/

/-- The type of an analyst recommendation/position
(`RatingType` in the source, five categories). -/
inductive RatingType where
  | Buy
  | Outperform
  | Hold
  | Underperform
  | Sell
deriving DecidableEq, Repr

/-- The fixed per-category weight used inside `scaled_average`
(the exhaustive `match` on lines 46-52 of the source). -/
def RatingType.weight : RatingType → Nat
  | .Buy => 1
  | .Outperform => 2
  | .Hold => 3
  | .Underperform => 4
  | .Sell => 5

/-- `2 ^ 32`, the modulus of Rust `u32` arithmetic (`Counter = u32`). -/
def u32 : Nat := 2 ^ 32

/-- The set of recommendation trends over some period of time (`Ratings`).
The hash map is an association list in iteration order; `scale_mark`
(an `Option<f32>` in the source) is an opaque optional score. -/
structure Ratings where
  ratings : List (RatingType × Nat)
  scale_mark : Option ℚ

/-- Well-formed `Ratings` state: hash-map keys are distinct and every
count fits in a `u32`. -/
def Ratings.WF (r : Ratings) : Prop :=
  (r.ratings.map Prod.fst).Nodup ∧ ∀ kv ∈ r.ratings, kv.2 < u32

instance (r : Ratings) : Decidable r.WF := by
  unfold Ratings.WF; infer_instance

/-- One step of the fold on lines 45-53 of the source:
`(c + *v, t + weight * *v)` in wrapping `u32` arithmetic. -/
def Ratings.foldStep (p : Nat × Nat) (kv : RatingType × Nat) : Nat × Nat :=
  ((p.1 + kv.2) % u32, (p.2 + (kv.1.weight * kv.2) % u32) % u32)

/-- `Ratings::scaled_average` (source lines 39-62): `None` on an empty map,
otherwise fold counts and weighted counts in `u32`, `None` when the
accumulated count is zero, else the quotient `total / count`. -/
def Ratings.scaled_average (r : Ratings) : Option ℚ :=
  if r.ratings.isEmpty then none
  else
    let ct := r.ratings.foldl Ratings.foldStep (0, 0)
    if ct.1 = 0 then none
    else some ((ct.2 : ℚ) / (ct.1 : ℚ))

/-- The exact (unbounded) total of the stored counts. -/
def Ratings.totalCount (r : Ratings) : Nat :=
  (r.ratings.map Prod.snd).sum

/-- The exact (unbounded) weighted total `sum(weight * count)`. -/
def Ratings.weightedTotal (r : Ratings) : Nat :=
  (r.ratings.map (fun kv => kv.1.weight * kv.2)).sum

/-- Consensus price targets (`PriceTarget`), generic over the opaque
ordered `Money` type `M`. -/
structure PriceTarget (M : Type) where
  high : M
  low : M
  average : M
  number_of_analysts : Nat

/-- `PriceTarget::validate` (source lines 79-90): check `high < low`,
then `!(low..=high).contains(&average)`, then `number_of_analysts == 0`,
returning the first failing check's error string. -/
def PriceTarget.validate {M : Type} [LinearOrder M] (pt : PriceTarget M) :
    Except String Unit :=
  if pt.high < pt.low then
    .error "High price target cannot be lower than low price target."
  else if ¬ (pt.low ≤ pt.average ∧ pt.average ≤ pt.high) then
    .error "Average price target must be within the high and low bounds."
  else if pt.number_of_analysts = 0 then
    .error "Number of analysts cannot be zero for a valid price target."
  else
    .ok ()

/-- Consensus EPS targets (`EPSConsensus`), generic over the opaque
ordered `Date` type `D`, the `Money` type `M` and the
`FinancialPeriod` tag type `P`. -/
structure EPSConsensus (D M P : Type) where
  consensus : M
  number_of_estimates : Nat
  fiscal_period : P
  fiscal_end_date : D
  next_report_date : D

/-- `EPSConsensus::validate` (source lines 109-117): check
`fiscal_end_date > next_report_date`, then `number_of_estimates == 0`,
returning the first failing check's error string. -/
def EPSConsensus.validate {D M P : Type} [LinearOrder D]
    (e : EPSConsensus D M P) : Except String Unit :=
  if e.next_report_date < e.fiscal_end_date then
    .error "Fiscal end date should be before the next report date."
  else if e.number_of_estimates = 0 then
    .error "Number of estimates cannot be zero for a valid EPS consensus."
  else
    .ok ()

-- Sanity checks on concrete values (the worked examples of the spec).
example :
    (Ratings.mk [(.Buy, 2), (.Sell, 2)] none).scaled_average = some 3 := by
  simp [Ratings.scaled_average, Ratings.foldStep, u32, RatingType.weight]
  norm_num

example : (Ratings.mk [(.Hold, 5)] none).scaled_average = some 3 := by
  simp [Ratings.scaled_average, Ratings.foldStep, u32, RatingType.weight]
  norm_num

example : (Ratings.mk [] none).scaled_average = none := by
  simp [Ratings.scaled_average]

example :
    (PriceTarget.mk (100 : ℤ) 80 90 5).validate = .ok () := by rfl

example :
    (PriceTarget.mk (80 : ℤ) 100 90 5).validate =
      .error "High price target cannot be lower than low price target." := by
  rfl

-- ----------------------------------------------------------------------
-- Helper lemmas
-- ----------------------------------------------------------------------

/-- Every rating weight is at least 1. -/
lemma RatingType.one_le_weight (k : RatingType) : 1 ≤ k.weight := by
  cases k <;> simp [RatingType.weight]

/-- Every rating weight is at most 5. -/
lemma RatingType.weight_le_five (k : RatingType) : k.weight ≤ 5 := by
  cases k <;> simp [RatingType.weight]

/-- The wrapping `u32` fold of `scaled_average` computes the exact count
and weighted sums reduced `% 2 ^ 32`. -/
lemma foldStep_eq_sums (l : List (RatingType × Nat)) (a b : Nat)
    (ha : a < u32) (hb : b < u32) :
    l.foldl Ratings.foldStep (a, b) =
      ((a + (l.map Prod.snd).sum) % u32,
       (b + (l.map fun kv => kv.1.weight * kv.2).sum) % u32) := by
  induction l generalizing a b with
  | nil =>
    simp [Nat.mod_eq_of_lt ha, Nat.mod_eq_of_lt hb]
  | cons kv t ih =>
    simp only [List.foldl_cons, List.map_cons, List.sum_cons]
    rw [Ratings.foldStep, ih ((a + kv.2) % u32) _
      (Nat.mod_lt _ (by norm_num [u32])) (Nat.mod_lt _ (by norm_num [u32]))]
    have hu : u32 = 4294967296 := by norm_num [u32]
    rw [Prod.mk.injEq, hu] at *
    omega

/-- Closed form of `scaled_average`: the test on the empty map, then the
exact sums modulo `2 ^ 32`. -/
lemma Ratings.scaled_average_eq (r : Ratings) :
    r.scaled_average =
      if r.ratings = [] then none
      else if r.totalCount % u32 = 0 then none
      else some (((r.weightedTotal % u32 : ℕ) : ℚ) /
                 ((r.totalCount % u32 : ℕ) : ℚ)) := by
  unfold Ratings.scaled_average
  rw [foldStep_eq_sums r.ratings 0 0 (by norm_num [u32]) (by norm_num [u32])]
  simp [Ratings.totalCount, Ratings.weightedTotal, List.isEmpty_iff]

/-- The plain count sum is dominated by the weighted sum (weights ≥ 1). -/
lemma sum_le_weighted_sum (l : List (RatingType × Nat)) :
    (l.map Prod.snd).sum ≤ (l.map fun kv => kv.1.weight * kv.2).sum := by
  induction l with
  | nil => simp
  | cons kv t ih =>
    simp only [List.map_cons, List.sum_cons]
    have h1 : 1 ≤ kv.1.weight := RatingType.one_le_weight kv.1
    have : kv.2 ≤ kv.1.weight * kv.2 := Nat.le_mul_of_pos_left _ h1
    omega

/-- The weighted sum is dominated by five times the count sum (weights ≤ 5). -/
lemma weighted_sum_le_five_mul (l : List (RatingType × Nat)) :
    (l.map fun kv => kv.1.weight * kv.2).sum ≤ 5 * (l.map Prod.snd).sum := by
  induction l with
  | nil => simp
  | cons kv t ih =>
    simp only [List.map_cons, List.sum_cons, Nat.mul_add]
    have : kv.1.weight * kv.2 ≤ 5 * kv.2 :=
      Nat.mul_le_mul_right _ (RatingType.weight_le_five kv.1)
    omega

-- ----------------------------------------------------------------------
-- Claims
-- ----------------------------------------------------------------------

/-- C1: For every PriceTarget value, `validate()` succeeds (returns `Ok`)
if and only if `low <= average <= high` and `number_of_analysts > 0`. -/
theorem PriceTarget.validate_ok_iff {M : Type} [LinearOrder M]
    (pt : PriceTarget M) :
    pt.validate = .ok () ↔
      pt.low ≤ pt.average ∧ pt.average ≤ pt.high ∧
        0 < pt.number_of_analysts := by
  unfold PriceTarget.validate
  split_ifs with h1 h2 h3
  · simp only [reduceCtorEq, false_iff]
    rintro ⟨hla, hah, -⟩
    exact absurd (hla.trans hah) (not_le.mpr h1)
  · simp only [reduceCtorEq, false_iff]
    rintro ⟨-, -, hn⟩
    omega
  · simp only [true_iff]
    exact ⟨h2.1, h2.2, Nat.pos_of_ne_zero h3⟩
  · simp only [reduceCtorEq, false_iff]
    rintro ⟨hla, hah, -⟩
    exact h2 ⟨hla, hah⟩

/-- C2: `PriceTarget::validate` checks, in this order and short-circuiting
on the first failure: `high >= low` (else the range-inverted error), then
`low <= average <= high` (else the average-out-of-bounds error), then
`number_of_analysts > 0` (else the no-analysts error); in particular, when
`high < low` only the range-inverted error is returned, regardless of the
other fields. -/
theorem PriceTarget.validate_check_order {M : Type} [LinearOrder M]
    (pt : PriceTarget M) :
    (pt.high < pt.low →
      pt.validate =
        .error "High price target cannot be lower than low price target.") ∧
    (¬ pt.high < pt.low →
      ¬ (pt.low ≤ pt.average ∧ pt.average ≤ pt.high) →
      pt.validate =
        .error "Average price target must be within the high and low bounds.") ∧
    (¬ pt.high < pt.low →
      (pt.low ≤ pt.average ∧ pt.average ≤ pt.high) →
      pt.number_of_analysts = 0 →
      pt.validate =
        .error "Number of analysts cannot be zero for a valid price target.") := by
  refine ⟨fun h1 => ?_, fun h1 h2 => ?_, fun h1 h2 h3 => ?_⟩
  · simp [PriceTarget.validate, h1]
  · simp [PriceTarget.validate, h1, h2]
  · simp [PriceTarget.validate, h1, h2.1, h2.2, h3]

/-- Witness for C2 at a concrete inverted-range input. -/
theorem PriceTarget.validate_check_order_witness :
    (PriceTarget.mk (0 : ℤ) 1 5 7).validate =
      .error "High price target cannot be lower than low price target." :=
  (PriceTarget.validate_check_order (PriceTarget.mk (0 : ℤ) 1 5 7)).1
    (by decide)

/-- C4: For every EPSConsensus value, `validate()` succeeds iff
`fiscal_end_date <= next_report_date` and `number_of_estimates > 0`; the
date check runs first, so inverted dates yield the date-order error
regardless of `number_of_estimates`. -/
theorem EPSConsensus.validate_succeeds_iff {D M P : Type} [LinearOrder D]
    (e : EPSConsensus D M P) :
    (e.validate = .ok () ↔
      e.fiscal_end_date ≤ e.next_report_date ∧ 0 < e.number_of_estimates) ∧
    (e.next_report_date < e.fiscal_end_date →
      e.validate =
        .error "Fiscal end date should be before the next report date.") := by
  constructor
  · unfold EPSConsensus.validate
    split_ifs with h1 h2
    · simp only [reduceCtorEq, false_iff]
      rintro ⟨hle, -⟩
      exact absurd hle (not_le.mpr h1)
    · simp only [reduceCtorEq, false_iff]
      rintro ⟨-, hn⟩
      omega
    · simp only [true_iff]
      exact ⟨not_lt.mp h1, Nat.pos_of_ne_zero h2⟩
  · intro h
    simp [EPSConsensus.validate, h]

/-- Witness for C4 at a concrete inverted-dates input. -/
theorem EPSConsensus.validate_succeeds_iff_witness :
    (EPSConsensus.mk (0 : ℚ) 10 () (2 : ℤ) 1).validate =
      .error "Fiscal end date should be before the next report date." :=
  (EPSConsensus.validate_succeeds_iff (EPSConsensus.mk (0 : ℚ) 10 () (2 : ℤ) 1)).2
    (by decide)

/-- C10: `EPSConsensus::validate` depends only on `fiscal_end_date`,
`next_report_date` and `number_of_estimates`: values agreeing on those
three fields validate identically; in particular any `consensus` value
(negative included) passes when the dates are ordered and
`number_of_estimates > 0`. -/
theorem EPSConsensus.validate_field_independent {D M P : Type}
    [LinearOrder D] (e1 e2 : EPSConsensus D M P)
    (h1 : e1.fiscal_end_date = e2.fiscal_end_date)
    (h2 : e1.next_report_date = e2.next_report_date)
    (h3 : e1.number_of_estimates = e2.number_of_estimates) :
    e1.validate = e2.validate ∧
    (e1.fiscal_end_date ≤ e1.next_report_date →
      0 < e1.number_of_estimates → e1.validate = .ok ()) := by
  constructor
  · unfold EPSConsensus.validate
    rw [h1, h2, h3]
  · intro hle hn
    unfold EPSConsensus.validate
    rw [if_neg (not_lt.mpr hle), if_neg (Nat.pos_iff_ne_zero.mp hn)]

/-- Witness for C10: a negative consensus and a different fiscal period do
not change the validation result. -/
theorem EPSConsensus.validate_field_independent_witness :
    ((EPSConsensus.mk (-5 : ℚ) 10 true (1 : ℤ) 2).validate =
      (EPSConsensus.mk (3 : ℚ) 10 false (1 : ℤ) 2).validate) ∧
    (EPSConsensus.mk (-5 : ℚ) 10 true (1 : ℤ) 2).validate = .ok () := by
  have h := EPSConsensus.validate_field_independent
    (EPSConsensus.mk (-5 : ℚ) 10 true (1 : ℤ) 2)
    (EPSConsensus.mk (3 : ℚ) 10 false (1 : ℤ) 2) rfl rfl rfl
  exact ⟨h.1, h.2 (by decide) (by decide)⟩

/-- C6: The spec's worked examples: the mapping with Buy and Sell both
counted twice averages to exactly 3, and the mapping with five Hold
ratings averages to exactly 3 (both iteration orders of the first map). -/
theorem Ratings.scaled_average_worked_examples :
    (Ratings.mk [(.Buy, 2), (.Sell, 2)] none).scaled_average = some 3 ∧
    (Ratings.mk [(.Sell, 2), (.Buy, 2)] none).scaled_average = some 3 ∧
    (Ratings.mk [(.Hold, 5)] none).scaled_average = some 3 := by
  refine ⟨?_, ?_, ?_⟩ <;>
  · simp [Ratings.scaled_average, Ratings.foldStep, u32, RatingType.weight]
    norm_num

/-- C7: `scaled_average` and `validate` are deterministic pure functions,
and the result of `scaled_average` depends only on which
(category, count) pairs the mapping contains, not on iteration order. -/
theorem scaled_average_validate_deterministic_order_independent
    (r1 r2 : Ratings) (h : r1.ratings.Perm r2.ratings) :
    (∀ r : Ratings, r.scaled_average = r.scaled_average) ∧
    (∀ (M : Type) [LinearOrder M] (pt : PriceTarget M),
      pt.validate = pt.validate) ∧
    (∀ (D M P : Type) [LinearOrder D] (e : EPSConsensus D M P),
      e.validate = e.validate) ∧
    r1.scaled_average = r2.scaled_average := by
  refine ⟨fun _ => rfl, fun _ _ _ => rfl, fun _ _ _ _ _ => rfl, ?_⟩
  rw [Ratings.scaled_average_eq, Ratings.scaled_average_eq]
  have hs : r1.totalCount = r2.totalCount := by
    unfold Ratings.totalCount
    exact (h.map Prod.snd).sum_eq
  have hw : r1.weightedTotal = r2.weightedTotal := by
    unfold Ratings.weightedTotal
    exact (h.map fun kv => kv.1.weight * kv.2).sum_eq
  have he : r1.ratings = [] ↔ r2.ratings = [] := by
    constructor <;> intro hx
    · exact List.eq_nil_of_length_eq_zero (by rw [← h.length_eq, hx]; rfl)
    · exact List.eq_nil_of_length_eq_zero (by rw [h.length_eq, hx]; rfl)
  rw [hs, hw]
  by_cases hnil : r1.ratings = []
  · rw [if_pos hnil, if_pos (he.mp hnil)]
  · rw [if_neg hnil, if_neg (fun hx => hnil (he.mpr hx))]

/-- Witness for C7 at two iteration orders of the same concrete map. -/
theorem scaled_average_order_independent_witness :
    (Ratings.mk [(.Buy, 2), (.Sell, 2)] none).scaled_average =
      (Ratings.mk [(.Sell, 2), (.Buy, 2)] none).scaled_average :=
  (scaled_average_validate_deterministic_order_independent
    (Ratings.mk [(.Buy, 2), (.Sell, 2)] none)
    (Ratings.mk [(.Sell, 2), (.Buy, 2)] none) (by decide)).2.2.2

/-- C8: `scaled_average` never reads `scale_mark`: two Ratings values with
the same ratings mapping give the same result whatever their marks. -/
theorem Ratings.scaled_average_ignores_scale_mark (r1 r2 : Ratings)
    (h : r1.ratings = r2.ratings) :
    r1.scaled_average = r2.scaled_average := by
  unfold Ratings.scaled_average
  rw [h]

/-- Witness for C8 at a concrete map with two different marks. -/
theorem Ratings.scaled_average_ignores_scale_mark_witness :
    (Ratings.mk [(.Hold, 1)] none).scaled_average =
      (Ratings.mk [(.Hold, 1)] (some 2)).scaled_average :=
  Ratings.scaled_average_ignores_scale_mark
    (Ratings.mk [(.Hold, 1)] none) (Ratings.mk [(.Hold, 1)] (some 2)) rfl

/-- A well-formed `u32` ratings state whose exact total count is `2 ^ 32`:
the wrapping fold reduces the accumulated count to zero. -/
def overflowRatings : Ratings :=
  ⟨[(.Buy, 2 ^ 31), (.Outperform, 2 ^ 31)], none⟩

/-- A well-formed `u32` ratings state whose exact total count is
`2 ^ 32 + 1`: the wrapping fold reduces the accumulated count to one. -/
def overflowRatings' : Ratings :=
  ⟨[(.Buy, 2 ^ 31), (.Outperform, 2 ^ 31 + 1)], none⟩

/-- C3 counterexample: under the `u32` arithmetic of the source, a
nonempty map whose counts sum to `2 ^ 32` makes `scaled_average` return
`none` although the mapping is nonempty and its total count is nonzero. -/
theorem Ratings.scaled_average_none_iff_counterexample :
    overflowRatings.scaled_average = none ∧
    overflowRatings.ratings ≠ [] ∧
    overflowRatings.totalCount ≠ 0 := by
  refine ⟨?_, by decide, by decide⟩
  rw [Ratings.scaled_average_eq]
  norm_num [overflowRatings, Ratings.totalCount, u32]

/-- C3 (amended): provided the exact total count and exact weighted total
each fit in a `u32` (no overflow), `scaled_average` returns `none` iff the
mapping is empty or the total of all stored counts is zero, and otherwise
returns exactly `sum(weight * count) / sum(count)`. -/
theorem Ratings.scaled_average_none_iff (r : Ratings)
    (hc : r.totalCount < u32) (hw : r.weightedTotal < u32) :
    (r.scaled_average = none ↔ r.ratings = [] ∨ r.totalCount = 0) ∧
    (r.ratings ≠ [] → r.totalCount ≠ 0 →
      r.scaled_average =
        some ((r.weightedTotal : ℚ) / (r.totalCount : ℚ))) := by
  rw [Ratings.scaled_average_eq, Nat.mod_eq_of_lt hc, Nat.mod_eq_of_lt hw]
  constructor
  · by_cases hnil : r.ratings = []
    · simp [hnil]
    · by_cases h0 : r.totalCount = 0 <;> simp [hnil, h0]
  · intro hne h0
    simp [hne, h0]

/-- Witness for the amended C3 at a concrete small map. -/
theorem Ratings.scaled_average_none_iff_witness :
    ((Ratings.mk [(.Hold, 5)] none).scaled_average = none ↔
      (Ratings.mk [(.Hold, 5)] none).ratings = [] ∨
        (Ratings.mk [(.Hold, 5)] none).totalCount = 0) ∧
    ((Ratings.mk [(.Hold, 5)] none).ratings ≠ [] →
      (Ratings.mk [(.Hold, 5)] none).totalCount ≠ 0 →
      (Ratings.mk [(.Hold, 5)] none).scaled_average =
        some (((Ratings.mk [(.Hold, 5)] none).weightedTotal : ℚ) /
              ((Ratings.mk [(.Hold, 5)] none).totalCount : ℚ))) :=
  Ratings.scaled_average_none_iff (Ratings.mk [(.Hold, 5)] none)
    (by decide) (by decide)

/-- C5 counterexample: under the `u32` arithmetic of the source, a
nonempty map with positive total count can produce a value far outside
[1, 5] (here 2147483650) when the accumulators wrap. -/
theorem Ratings.scaled_average_bounds_counterexample :
    overflowRatings'.ratings ≠ [] ∧
    0 < overflowRatings'.totalCount ∧
    overflowRatings'.scaled_average = some 2147483650 ∧
    ¬ ((2147483650 : ℚ) ≤ 5) := by
  refine ⟨by decide, by decide, ?_, by norm_num⟩
  rw [Ratings.scaled_average_eq,
    if_neg (by decide : ¬ overflowRatings'.ratings = [])]
  norm_num [overflowRatings', Ratings.totalCount, Ratings.weightedTotal,
    RatingType.weight, u32]

/-- C5 (amended): for every nonempty mapping with positive total count
whose exact total count and weighted total each fit in a `u32` (no
overflow), `scaled_average` returns a value in the closed interval
[1, 5]. -/
theorem Ratings.scaled_average_bounds (r : Ratings)
    (hne : r.ratings ≠ []) (h0 : 0 < r.totalCount)
    (hc : r.totalCount < u32) (hw : r.weightedTotal < u32) :
    ∃ q : ℚ, r.scaled_average = some q ∧ 1 ≤ q ∧ q ≤ 5 := by
  refine ⟨(r.weightedTotal : ℚ) / (r.totalCount : ℚ), ?_, ?_, ?_⟩
  · rw [Ratings.scaled_average_eq, Nat.mod_eq_of_lt hc, Nat.mod_eq_of_lt hw,
      if_neg hne, if_neg (Nat.pos_iff_ne_zero.mp h0)]
  · rw [le_div_iff₀ (by exact_mod_cast h0), one_mul]
    exact_mod_cast sum_le_weighted_sum r.ratings
  · rw [div_le_iff₀ (by exact_mod_cast h0)]
    have h5 := weighted_sum_le_five_mul r.ratings
    exact_mod_cast h5

/-- Witness for the amended C5 at a concrete small map. -/
theorem Ratings.scaled_average_bounds_witness :
    ∃ q : ℚ,
      (Ratings.mk [(.Buy, 2), (.Sell, 2)] none).scaled_average = some q ∧
      1 ≤ q ∧ q ≤ 5 :=
  Ratings.scaled_average_bounds (Ratings.mk [(.Buy, 2), (.Sell, 2)] none)
    (by decide) (by decide) (by decide) (by decide)

/-- C9 counterexample: a well-formed `u32` state (distinct keys, every
count a valid `u32`) whose exact total count `2 ^ 32` exceeds `u32` range:
the accumulated pair differs from the exact sums, and `scaled_average`
returns `none` despite a nonzero exact total, so the computed result is
not the exact weighted mean. -/
theorem Ratings.fold_no_overflow_counterexample :
    overflowRatings.WF ∧
    ¬ (overflowRatings.totalCount < u32) ∧
    overflowRatings.ratings.foldl Ratings.foldStep (0, 0) ≠
      (overflowRatings.totalCount, overflowRatings.weightedTotal) ∧
    overflowRatings.totalCount ≠ 0 ∧
    overflowRatings.scaled_average = none := by
  refine ⟨by decide, by decide, by decide, by decide, ?_⟩
  rw [Ratings.scaled_average_eq]
  norm_num [overflowRatings, Ratings.totalCount, u32]

/-- C9 (amended): whenever the exact total count and exact weighted total
each fit in a `u32`, the accumulation inside `scaled_average` does not
overflow — the fold produces exactly the mathematical sums — and for a
nonzero total the computed result equals the exact weighted mean. -/
theorem Ratings.fold_no_overflow (r : Ratings)
    (hc : r.totalCount < u32) (hw : r.weightedTotal < u32) :
    r.ratings.foldl Ratings.foldStep (0, 0) =
      (r.totalCount, r.weightedTotal) ∧
    (r.totalCount ≠ 0 →
      r.scaled_average =
        some ((r.weightedTotal : ℚ) / (r.totalCount : ℚ))) := by
  constructor
  · have h := foldStep_eq_sums r.ratings 0 0
      (by norm_num [u32]) (by norm_num [u32])
    simp only [zero_add] at h
    rw [h, Prod.mk.injEq]
    exact ⟨Nat.mod_eq_of_lt hc, Nat.mod_eq_of_lt hw⟩
  · intro h0
    have hne : r.ratings ≠ [] := by
      intro e
      exact h0 (by simp [Ratings.totalCount, e])
    rw [Ratings.scaled_average_eq, Nat.mod_eq_of_lt hc, Nat.mod_eq_of_lt hw,
      if_neg hne, if_neg h0]

/-- Witness for the amended C9 at a concrete small map. -/
theorem Ratings.fold_no_overflow_witness :
    ((Ratings.mk [(.Buy, 2), (.Sell, 2)] none).ratings.foldl
        Ratings.foldStep (0, 0) =
      ((Ratings.mk [(.Buy, 2), (.Sell, 2)] none).totalCount,
       (Ratings.mk [(.Buy, 2), (.Sell, 2)] none).weightedTotal)) ∧
    (Ratings.mk [(.Buy, 2), (.Sell, 2)] none).scaled_average =
      some (((Ratings.mk [(.Buy, 2), (.Sell, 2)] none).weightedTotal : ℚ) /
            ((Ratings.mk [(.Buy, 2), (.Sell, 2)] none).totalCount : ℚ)) := by
  have h := Ratings.fold_no_overflow
    (Ratings.mk [(.Buy, 2), (.Sell, 2)] none) (by decide) (by decide)
  exact ⟨h.1, h.2 (by decide)⟩
